import Mathlib

/-
Verification of `cc-worker/scripts/cc_worker.py`: the command builders,
the process runner / result interpreter, and the file-backed session store.

Modelling conventions:
- Python JSON values are a `Json` inductive; numeric literals are modelled as
  integers (no claim under verification involves fractional numbers, and the
  parser rejects fraction/exponent forms rather than approximating them).
- Python functions that can raise an uncaught exception are modelled in
  `Except PyError`; exceptions that the source catches are modelled as the
  corresponding `Option`/branch result.
- `str.strip`, `str.splitlines` and the regex classes `\s` / `\d` are modelled
  over their ASCII/common members (every input exercised here is ASCII).
- Each call of `_now_iso()` inside one store operation is modelled as a single
  `now : String` instant (ISO-8601 UTC strings compare chronologically by the
  lexicographic string order used here).
- The filesystem session directory is modelled as an association list from
  filename stem to parsed record, in directory-enumeration order.
-/

/-- A Python JSON value (`json.loads` result), with objects as key/value lists
in insertion order (duplicate keys resolved at parse time, Python-dict style). -/
inductive Json where
  | null
  | bool (flag : Bool)
  | num (value : Int)
  | str (text : String)
  | arr (items : List Json)
  | obj (fields : List (String × Json))

/-- Lookup in an object's member list (Python `dict` access); `none` for a
missing key or a non-object. Parsed objects have unique keys. -/
def jget (j : Json) (key : String) : Option Json :=
  match j with
  | .obj members => go members
  | _ => none
where
  go : List (String × Json) → Option Json
    | [] => none
    | (k, v) :: rest => if k = key then some v else go rest

/-- Python `d.get(key, default)`. -/
def jgetD (j : Json) (key : String) (default : Json) : Json :=
  (jget j key).getD default

/-- Python truthiness of a JSON value (`if x:`). -/
def truthy : Json → Bool
  | .null => false
  | .bool b => b
  | .num n => n != 0
  | .str s => s ≠ ""
  | .arr es => !es.isEmpty
  | .obj ms => !ms.isEmpty

/-- Tests whether a JSON value is the string `s` (Python `x == s` for a
string literal `s`: cross-type comparisons are `False`). -/
def Json.isStrVal (j : Json) (s : String) : Bool :=
  match j with
  | .str t => t = s
  | _ => false

/-- Tests whether a JSON value is a non-empty list. -/
def Json.isNonEmptyArr : Json → Bool
  | .arr (_ :: _) => true
  | _ => false

/-- Python `str(x)` for scalars, used where a JSON value is interpolated into
a filename; the container cases are an approximation (no claim reaches them). -/
def pyStr : Json → String
  | .null => "None"
  | .bool true => "True"
  | .bool false => "False"
  | .num n => toString n
  | .str s => s
  | .arr _ => "[...]"
  | .obj _ => "\x7b...\x7d"

/-- Whitespace for `str.strip()` and the regex class `\s` (ASCII and the
common Unicode members). -/
def pyIsSpace (c : Char) : Bool :=
  c = ' ' || c = '\t' || c = '\n' || c = '\r' ||
  c = Char.ofNat 0x0b || c = Char.ofNat 0x0c ||
  c = Char.ofNat 0x1c || c = Char.ofNat 0x1d || c = Char.ofNat 0x1e ||
  c = Char.ofNat 0x85 || c = Char.ofNat 0xa0 ||
  c = Char.ofNat 0x2028 || c = Char.ofNat 0x2029 || c = Char.ofNat 0x3000

/-- Line boundaries recognised by Python `str.splitlines()`. -/
def pyLineBreak (c : Char) : Bool :=
  c = '\n' || c = '\r' ||
  c = Char.ofNat 0x0b || c = Char.ofNat 0x0c ||
  c = Char.ofNat 0x1c || c = Char.ofNat 0x1d || c = Char.ofNat 0x1e ||
  c = Char.ofNat 0x85 || c = Char.ofNat 0x2028 || c = Char.ofNat 0x2029

/-- Python `str.strip()`: drop leading and trailing whitespace. -/
def pyStrip (s : String) : String :=
  String.mk (((s.toList.dropWhile pyIsSpace).reverse.dropWhile pyIsSpace).reverse)

/-- Python `str.startswith(pre)` (character-list form, so that closed terms
reduce in the kernel). -/
def pyStartsWith (s pre : String) : Bool :=
  pre.toList.isPrefixOf s.toList

/-- Python `str.endswith(suf)`. -/
def pyEndsWith (s suf : String) : Bool :=
  suf.toList.isSuffixOf s.toList

/-- Python `s[:n]` (by code points, as Python slices strings). -/
def strTake (s : String) (n : Nat) : String :=
  String.mk (s.toList.take n)

/-- Python `str.splitlines()` on a character list: split at each line
boundary (with `\r\n` as one boundary); the final segment is kept only when
non-empty. -/
def pySplitlinesAux : List Char → List Char → List String
  | [], acc => if acc.isEmpty then [] else [String.mk acc.reverse]
  | '\r' :: '\n' :: rest, acc => String.mk acc.reverse :: pySplitlinesAux rest []
  | c :: rest, acc =>
      if pyLineBreak c then String.mk acc.reverse :: pySplitlinesAux rest []
      else pySplitlinesAux rest (c :: acc)

/-- Python `str.splitlines()`. -/
def pySplitlines (s : String) : List String :=
  pySplitlinesAux s.toList []

/-- Python `str.split(",")`: split at every comma, keeping empty segments. -/
def pySplitComma (s : String) : List String :=
  go s.toList []
where
  go : List Char → List Char → List String
    | [], acc => [String.mk acc.reverse]
    | c :: rest, acc =>
        if c = ',' then String.mk acc.reverse :: go rest []
        else go rest (c :: acc)

/-- Whitespace skipped by the `json` module between tokens (exactly these four). -/
def skipWs (cs : List Char) : List Char :=
  cs.dropWhile (fun c => c = ' ' || c = '\t' || c = '\n' || c = '\r')

/-- Consumes an expected literal tail (rest of `true`/`false`/`null`). -/
def parseLit : List Char → List Char → Option (List Char)
  | [], cs => some cs
  | l :: ls, c :: cs => if c = l then parseLit ls cs else none
  | _ :: _, [] => none

/-- Hex digit value for `\uXXXX` escapes, by code point ranges. -/
def hexVal (c : Char) : Option Nat :=
  let n := c.toNat
  if 47 < n ∧ n < 58 then some (n - 48)
  else if 96 < n ∧ n < 103 then some (n - 87)
  else if 64 < n ∧ n < 71 then some (n - 55)
  else none

/-- Body of a JSON string literal after the opening quote, in strict mode
(unescaped control characters rejected, only the eight JSON escapes and
`\uXXXX` accepted). -/
def parseStringBody : List Char → List Char → Option (String × List Char)
  | [], _ => none
  | '\\' :: 'u' :: h1 :: h2 :: h3 :: h4 :: rest, acc =>
      match hexVal h1, hexVal h2, hexVal h3, hexVal h4 with
      | some a, some b, some c, some d =>
          parseStringBody rest (Char.ofNat (((a * 16 + b) * 16 + c) * 16 + d) :: acc)
      | _, _, _, _ => none
  | '\\' :: e :: rest, acc =>
      if e = '\"' then parseStringBody rest ('\"' :: acc)
      else if e = '\\' then parseStringBody rest ('\\' :: acc)
      else if e = '/' then parseStringBody rest ('/' :: acc)
      else if e = 'b' then parseStringBody rest (Char.ofNat 8 :: acc)
      else if e = 'f' then parseStringBody rest (Char.ofNat 12 :: acc)
      else if e = 'n' then parseStringBody rest ('\n' :: acc)
      else if e = 'r' then parseStringBody rest ('\r' :: acc)
      else if e = 't' then parseStringBody rest ('\t' :: acc)
      else none
  | c :: rest, acc =>
      if c = '\"' then some (String.mk acc.reverse, rest)
      else if c.toNat < 0x20 then none
      else parseStringBody rest (c :: acc)

/-- Digits to a natural number. -/
def digitsToNat (ds : List Char) : Nat :=
  ds.foldl (fun n c => n * 10 + (c.toNat - '0'.toNat)) 0

/-- A JSON number literal. Integer forms only: a fraction or exponent makes
the parse fail (floats are outside the modelled fragment; no claim involves
them). Leading zeros are rejected as in the JSON grammar. -/
def parseNumber (cs : List Char) : Option (Json × List Char) :=
  let (neg, cs1) := match cs with
    | '-' :: t => (true, t)
    | _ => (false, cs)
  match cs1 with
  | [] => none
  | c :: _ =>
    if !c.isDigit then none
    else if c = '0' && (match cs1 with | _ :: d :: _ => d.isDigit | _ => false) then none
    else
      let ds := cs1.takeWhile Char.isDigit
      let rest := cs1.dropWhile Char.isDigit
      match rest with
      | e :: _ => if e = '.' || e = 'e' || e = 'E' then none
                  else some (.num (if neg then -(digitsToNat ds : Int) else digitsToNat ds), rest)
      | [] => some (.num (if neg then -(digitsToNat ds : Int) else digitsToNat ds), rest)

/-- Python-dict insertion: an existing key keeps its position and gets the
new value; a new key is appended. -/
def pyDictInsert : List (String × Json) → String → Json → List (String × Json)
  | [], k, v => [(k, v)]
  | (k', v') :: t, k, v =>
      if k' = k then (k, v) :: t else (k', v') :: pyDictInsert t k v

mutual

/-- A JSON value at the head of `cs` (whitespace already skipped). -/
def parseVal : Nat → List Char → Option (Json × List Char)
  | 0, _ => none
  | fuel + 1, cs =>
    match cs with
    | [] => none
    | c :: rest =>
      if c = '\"' then (parseStringBody rest []).map (fun p => (.str p.1, p.2))
      else if c = Char.ofNat 123 then
        match skipWs rest with
        | c2 :: r2 => if c2 = Char.ofNat 125 then some (.obj [], r2)
                      else parseObjMembers fuel (c2 :: r2) []
        | [] => none
      else if c = '[' then
        match skipWs rest with
        | c2 :: r2 => if c2 = ']' then some (.arr [], r2)
                      else parseArrElems fuel (c2 :: r2) []
        | [] => none
      else if c = 't' then (parseLit ['r', 'u', 'e'] rest).map ((Json.bool true, ·))
      else if c = 'f' then (parseLit ['a', 'l', 's', 'e'] rest).map ((Json.bool false, ·))
      else if c = 'n' then (parseLit ['u', 'l', 'l'] rest).map ((Json.null, ·))
      else if c = '-' || c.isDigit then parseNumber cs
      else none

/-- Array elements from the first element onward. -/
def parseArrElems : Nat → List Char → List Json → Option (Json × List Char)
  | 0, _, _ => none
  | fuel + 1, cs, acc =>
    match parseVal fuel cs with
    | none => none
    | some (v, r) =>
      match skipWs r with
      | ',' :: r2 => parseArrElems fuel (skipWs r2) (v :: acc)
      | ']' :: r2 => some (.arr (v :: acc).reverse, r2)
      | _ => none

/-- Object members from the first key onward. -/
def parseObjMembers : Nat → List Char → List (String × Json) → Option (Json × List Char)
  | 0, _, _ => none
  | fuel + 1, cs, acc =>
    match cs with
    | c :: r =>
      if c = '\"' then
        match parseStringBody r [] with
        | none => none
        | some (k, r2) =>
          match skipWs r2 with
          | ':' :: r3 =>
            match parseVal fuel (skipWs r3) with
            | none => none
            | some (v, r4) =>
              let acc' := pyDictInsert acc k v
              match skipWs r4 with
              | ',' :: r5 => parseObjMembers fuel (skipWs r5) acc'
              | c2 :: r5 => if c2 = Char.ofNat 125 then some (.obj acc', r5) else none
              | [] => none
          | _ => none
      else none
    | [] => none

end

/-- Python `json.loads` over the modelled fragment: `none` is a
`json.JSONDecodeError`. -/
def json_loads (s : String) : Option Json :=
  match parseVal (2 * s.length + 2) (skipWs s.toList) with
  | some (v, rest) => if (skipWs rest).isEmpty then some v else none
  | none => none

/-- Backtick character (the fence delimiter). -/
def btick : Char := Char.ofNat 96

/-- Lazy search for the closing `"\n" ++ three backticks` of a fenced block:
returns the captured body and the remainder after the closing fence. -/
def fenceClose : List Char → List Char → Option (String × List Char)
  | '\n' :: c1 :: c2 :: c3 :: rest, acc =>
      if c1 = btick && c2 = btick && c3 = btick then some (String.mk acc.reverse, rest)
      else fenceClose (c1 :: c2 :: c3 :: rest) ('\n' :: acc)
  | c :: rest, acc => fenceClose rest (c :: acc)
  | [], _ => none

/-- Positions (descending) at which the greedy-then-backtracking regex piece
matching whitespace then a newline can place its final newline: the newline
positions inside the leading whitespace run of `u`. -/
def nlPositionsDesc (u : List Char) : List Nat :=
  let m := (u.takeWhile pyIsSpace).length
  ((List.range m).filter (fun j => u.get? j = some '\n')).reverse

/-- Tries each candidate newline position in backtracking order, looking for
a closed fence body after it. -/
def tryTailAt : List Nat → List Char → Option (String × List Char)
  | [], _ => none
  | j :: js, u =>
      match fenceClose (u.drop (j + 1)) [] with
      | some r => some r
      | none => tryTailAt js u

/-- One attempt of the fenced-block pattern anchored at the head of `cs`
(three backticks, optional `json` tag, whitespace ending in a newline, lazy
body, newline and three closing backticks), with the regex engine's
backtracking over the optional tag and the whitespace run. -/
def matchFenceAt (cs : List Char) : Option (String × List Char) :=
  match cs with
  | c1 :: c2 :: c3 :: rest =>
    if c1 = btick && c2 = btick && c3 = btick then
      match rest with
      | 'j' :: 's' :: 'o' :: 'n' :: r4 =>
          (tryTailAt (nlPositionsDesc r4) r4).orElse
            (fun _ => tryTailAt (nlPositionsDesc rest) rest)
      | _ => tryTailAt (nlPositionsDesc rest) rest
    else none
  | _ => none

/-- Scan of the whole text for fenced blocks in order of appearance
(`re.findall` semantics: non-overlapping, resuming after each match). -/
def findFencesAux : Nat → List Char → List String
  | 0, _ => []
  | _ + 1, [] => []
  | fuel + 1, c :: t =>
      match matchFenceAt (c :: t) with
      | some (cap, rest) => cap :: findFencesAux fuel rest
      | none => findFencesAux fuel t

/-- All fenced-block bodies of `s`, in order of appearance. -/
def findFences (s : String) : List String :=
  findFencesAux s.length s.toList

/-- Tests `isinstance(data, dict) and "status" in data`. -/
def isDictWithStatus (j : Json) : Bool :=
  match j with
  | .obj _ => (jget j "status").isSome
  | _ => false

/-- First fenced-block body that parses to an object containing a `status`
key (parse failures and non-conforming values are skipped). -/
def firstFenceJson : List String → Option Json
  | [] => none
  | cap :: rest =>
      match json_loads cap with
      | some d => if isDictWithStatus d then some d else firstFenceJson rest
      | none => firstFenceJson rest

/-- Models `_extract_worker_json`: direct JSON parse accepted only for an
object with a `status` key, otherwise the fenced-block scan, otherwise `none`. -/
def extract_worker_json (text : String) : Option Json :=
  match json_loads text with
  | some d => if isDictWithStatus d then some d else firstFenceJson (findFences text)
  | none => firstFenceJson (findFences text)

/-- Models the substitution removing a leading ordinal marker (one or more
digits followed by a dot or closing parenthesis, then any whitespace); the
pattern is anchored, so at most one substitution happens. -/
def stripOrdinalMarker (s : String) : String :=
  let cs := s.toList
  let ds := cs.takeWhile Char.isDigit
  if ds.isEmpty then s
  else
    match cs.drop ds.length with
    | c :: rest => if c = '.' || c = ')' then String.mk (rest.dropWhile pyIsSpace) else s
    | [] => s

/-- Models the substitution removing a leading bullet marker (one dash or
asterisk, then any whitespace). -/
def stripBulletMarker (s : String) : String :=
  match s.toList with
  | c :: rest => if c = '-' || c = '*' then String.mk (rest.dropWhile pyIsSpace) else s
  | [] => s

/-- One iteration of the `_fallback_extract_questions` loop body: skip short
or heading lines, strip the markers, and append a kept question. -/
def questionStep (qs : List String) (l : String) : List String :=
  let line := pyStrip l
  if line.length < 10 || pyStartsWith line "#" then qs
  else
    let cleaned := stripBulletMarker (stripOrdinalMarker line)
    if pyEndsWith cleaned "?" && cleaned.length > 10 then qs ++ [cleaned] else qs

/-- Models `_fallback_extract_questions`: the accumulating loop over the
text's lines. -/
def fallback_extract_questions (text : String) : List String :=
  (pySplitlines text).foldl questionStep []

/-- Default allowed-tool list (read-only/retrieval capabilities). -/
def DEFAULT_ALLOWED_TOOLS : List String :=
  ["Read", "Grep", "Glob", "Task", "WebSearch", "mcp__contextweaver__codebase-retrieval"]

/-- Fixed disallowed-tool list: the hard restriction always appended. -/
def DISALLOWED_TOOLS : List String :=
  ["Edit", "Write", "Bash", "NotebookEdit"]

/-- Ambient system facts consulted by `_find_claude_bin` and the prompt-file
path: platform, `shutil.which` results, home directory, file existence, and
the resolved worker system-prompt path. -/
structure SysEnv where
  isWindows : Bool
  whichClaudeCmd : Option String
  whichClaude : Option String
  home : String
  existsAt : String → Bool
  workerPromptFile : String

/-- Models `_find_claude_bin`: platform-specific name, generic name, the
fixed candidate locations, then the bare name. -/
def find_claude_bin (env : SysEnv) : String :=
  match (if env.isWindows then env.whichClaudeCmd else none) with
  | some p => p
  | none =>
    match env.whichClaude with
    | some p => p
    | none =>
      let candidates := [
        env.home ++ "/AppData/Roaming/npm/claude.cmd",
        env.home ++ "/.claude/local/claude.exe",
        env.home ++ "/.claude/local/claude",
        "/usr/local/bin/claude"]
      match candidates.find? env.existsAt with
      | some c => c
      | none => "claude"

/-- Models `_build_exec_cmd`. A caller-supplied empty tool list is falsy in
Python, so it falls back to the default list; an empty model string is falsy,
so no `--model` flag is appended. -/
def build_exec_cmd (env : SysEnv) (task : String) (model : Option String)
    (max_turns : Int) (allowed_tools : Option (List String)) : List String :=
  let tools := match allowed_tools with
    | some ts => if ts.isEmpty then DEFAULT_ALLOWED_TOOLS else ts
    | none => DEFAULT_ALLOWED_TOOLS
  let cmd := [find_claude_bin env, "-p", task, "--output-format", "json",
    "--max-turns", toString max_turns,
    "--append-system-prompt-file", env.workerPromptFile,
    "--allowedTools", String.intercalate "," tools,
    "--disallowedTools", String.intercalate "," DISALLOWED_TOOLS]
  match model with
  | some m => if m = "" then cmd else cmd ++ ["--model", m]
  | none => cmd

/-- Models `_build_continue_cmd`: resume flag, no allowed-tools override,
disallowed list still appended. -/
def build_continue_cmd (env : SysEnv) (session_id : String) (message : String)
    (model : Option String) (max_turns : Int) : List String :=
  let cmd := [find_claude_bin env, "-p", message, "--resume", session_id,
    "--output-format", "json",
    "--max-turns", toString max_turns,
    "--disallowedTools", String.intercalate "," DISALLOWED_TOOLS]
  match model with
  | some m => if m = "" then cmd else cmd ++ ["--model", m]
  | none => cmd

/-- Python exceptions that escape the modelled functions. -/
inductive PyError where
  | typeError
  | attributeError
  | fileNotFound

/-- Exogenous behaviour of the external subprocess: the binary is missing,
the wall-clock budget expires, or the process completes with an exit code
and captured stdout/stderr. -/
inductive ProcOutcome where
  | notFound
  | timedOut
  | completed (returncode : Int) (stdout : String) (stderr : String)

/-- Models `_run` from the parsed raw envelope onward: the metadata fields,
then the structured path (payload fields with defaults) or the heuristic
fallback. A non-dict envelope raises `AttributeError` at `raw.get`; a
non-string `result` value raises `TypeError` at `re.findall` (the earlier
`json.loads(text)` `TypeError` is caught). -/
def normalizeRaw (raw : Json) : Except PyError Json :=
  match raw with
  | .obj _ =>
    let base := [
      ("session_id", jgetD raw "session_id" (.str "")),
      ("model", jgetD raw "model" (.str "")),
      ("cost_usd", jgetD raw "total_cost_usd" (.num 0)),
      ("duration_ms", jgetD raw "duration_ms" (.num 0)),
      ("num_turns", jgetD raw "num_turns" (.num 0)),
      ("is_error", jgetD raw "is_error" (.bool false)),
      ("subtype", jgetD raw "subtype" (.str ""))]
    match jgetD raw "result" (.str "") with
    | .str raw_result =>
      match extract_worker_json raw_result with
      | some w =>
        .ok (.obj (base ++ [
          ("status", jgetD w "status" (.str "completed")),
          ("summary", jgetD w "summary" (.str "")),
          ("analysis", jgetD w "analysis" (.str "")),
          ("questions", jgetD w "questions" (.arr [])),
          ("files_analyzed", jgetD w "files_analyzed" (.arr []))]))
      | none =>
        let is_truncated := (jgetD raw "subtype" Json.null).isStrVal "error_max_turns"
        let questions := fallback_extract_questions raw_result
        .ok (.obj (base ++ [
          ("status", .str (if is_truncated then "incomplete"
            else if !questions.isEmpty then "needs_clarification"
            else "completed")),
          ("summary", .str ""),
          ("analysis", .str raw_result),
          ("questions", .arr (questions.map Json.str)),
          ("files_analyzed", .arr [])]))
    | _ => .error .typeError
  | _ => .error .attributeError

/-- Models `_run`: classify the process outcome (missing binary, timeout,
non-zero exit without usable stdout, non-JSON stdout) into error objects
with their exit-code sentinels, else normalize the parsed envelope. The
built argv does not influence the modelled subprocess, which is exogenous. -/
def runProc (_cmd : List String) (outcome : ProcOutcome) (timeout : Int) :
    Except PyError Json :=
  match outcome with
  | .notFound =>
      .ok (.obj [("error", .str "claude CLI not found. Install Claude Code first."),
                 ("exit_code", .num (-1))])
  | .timedOut =>
      .ok (.obj [("error", .str s!"Task timed out after {timeout} seconds"),
                 ("exit_code", .num (-2))])
  | .completed rc out err =>
      if rc != 0 && pyStrip out = "" then
        .ok (.obj [("error", .str (if pyStrip err = "" then s!"claude exited with code {rc}"
                                   else pyStrip err)),
                   ("exit_code", .num rc)])
      else
        match json_loads out with
        | none =>
            .ok (.obj [("error", .str "Failed to parse claude output as JSON"),
                       ("raw_output", .str (strTake out 2000)),
                       ("exit_code", .num rc)])
        | some raw => normalizeRaw raw

/-- One recorded turn of a session: user turns carry no `status` key,
assistant turns always carry one (possibly null). -/
structure Turn where
  role : String
  content : Json
  timestamp : String
  status : Option Json

/-- A session record as written by `session_save` (one JSON file per
session; serialisation to and from the file is the identity on this schema). -/
structure SessionRecord where
  session_id : String
  task : String
  cwd : String
  model : String
  created_at : String
  updated_at : String
  turns : List Turn
  last_status : Json
  last_summary : Json

/-- The session directory: filename stem and parsed record, in
directory-enumeration order. -/
abbrev Store := List (String × SessionRecord)

/-- Overwrite of a session file: an existing stem keeps its place, a new one
is appended. -/
def storeSet : Store → String → SessionRecord → Store
  | [], k, r => [(k, r)]
  | (k', r') :: t, k, r =>
      if k' = k then (k, r) :: t else (k', r') :: storeSet t k r

/-- Models `session_save`: the fresh record (two initial turns) and the
store after writing its file. -/
def session_save (store : Store) (session_id task : String) (result : Json)
    (cwd model : String) (now : String) : SessionRecord × Store :=
  let data : SessionRecord := {
    session_id := session_id
    task := task
    cwd := cwd
    model := model
    created_at := now
    updated_at := now
    turns := [
      { role := "user", content := .str task, timestamp := now, status := none },
      { role := "assistant", content := jgetD result "result" (.str ""),
        timestamp := now, status := some (jgetD result "status" .null) }]
    last_status := jgetD result "status" (.str "completed")
    last_summary := jgetD result "summary" (.str "") }
  (data, storeSet store session_id data)

/-- Models the record rewrite done by `session_update`: two appended turns,
new `updated_at`, rewritten `last_status`/`last_summary`. -/
def session_update_rec (data : SessionRecord) (message : String) (result : Json)
    (now : String) : SessionRecord :=
  { data with
    turns := data.turns ++ [
      { role := "user", content := .str message, timestamp := now, status := none },
      { role := "assistant", content := jgetD result "result" (.str ""),
        timestamp := now, status := some (jgetD result "status" .null) }]
    updated_at := now
    last_status := jgetD result "status" (.str "completed")
    last_summary := jgetD result "summary" (.str "") }

/-- Existence and read of the exact session file `<stem>.json`. -/
def storeLookup : Store → String → Option SessionRecord
  | [], _ => none
  | (k, r) :: t, session_id => if k = session_id then some r else storeLookup t session_id

/-- Models `session_update` at the store level: reading a missing file
raises `FileNotFoundError`. -/
def session_update (store : Store) (session_id message : String) (result : Json)
    (now : String) : Except PyError Store :=
  match storeLookup store session_id with
  | none => .error .fileNotFound
  | some data => .ok (storeSet store session_id (session_update_rec data message result now))

/-- Models `session_get`: exact filename first, then the first stem (in
enumeration order) starting with the given id. -/
def session_get (store : Store) (session_id : String) : Option SessionRecord :=
  match storeLookup store session_id with
  | some data => some data
  | none => (store.find? (fun p => pyStartsWith p.1 session_id)).map (fun p => p.2)

/-- Models `session_delete`: unlink the exact file if present, reporting
whether a deletion occurred. -/
def session_delete : Store → String → Bool × Store
  | [], _ => (false, [])
  | (k, r) :: t, session_id =>
      if k = session_id then (true, t)
      else
        let p := session_delete t session_id
        (p.1, (k, r) :: p.2)

/-- Tests whether the exact session file exists. -/
def storeHasKey (store : Store) (session_id : String) : Bool :=
  (storeLookup store session_id).isSome

/-- Models `cmd_exec`: build the argv, run, and on an error result print it
and exit 1 without touching the store; otherwise save a session when a
truthy session id is present and exit 0. -/
def cmd_exec (env : SysEnv) (outcome : ProcOutcome) (task : String)
    (cwdArg modelArg allowedToolsArg : Option String) (maxTurns : Int)
    (timeout : Int) (store : Store) (now : String) : Except PyError (Int × Store) :=
  let allowed := match allowedToolsArg with
    | some s => if s = "" then none else some ((pySplitComma s).map pyStrip)
    | none => none
  let model := match modelArg with
    | some m => if m = "" then none else some m
    | none => none
  match runProc (build_exec_cmd env task model maxTurns allowed) outcome timeout with
  | .error e => .error e
  | .ok result =>
    if (jget result "error").isSome then .ok (1, store)
    else
      let sid := jgetD result "session_id" (.str "")
      if truthy sid then
        let cwd := match cwdArg with
          | some c => if c = "" then "." else c
          | none => "."
        let savedModel :=
          pyStr (jgetD result "model" (.str (match modelArg with
            | some m => m
            | none => "")))
        .ok (0, (session_save store (pyStr sid) task result cwd savedModel now).2)
      else .ok (0, store)

/-- Models `cmd_continue`: resolve the session by id or prefix, run the
continuation, and on an error result exit 1 without touching the store;
otherwise append to the session when one was found. -/
def cmd_continue (env : SysEnv) (outcome : ProcOutcome) (session_idArg message : String)
    (modelArg : Option String) (maxTurns : Int) (timeout : Int) (store : Store)
    (now : String) : Except PyError (Int × Store) :=
  let session := session_get store session_idArg
  let full_id := match session with
    | some s => s.session_id
    | none => session_idArg
  let model := match modelArg with
    | some m => if m = "" then none else some m
    | none => none
  match runProc (build_continue_cmd env full_id message model maxTurns) outcome timeout with
  | .error e => .error e
  | .ok result =>
    if (jget result "error").isSome then .ok (1, store)
    else
      match session with
      | some _ =>
          match session_update store full_id message result now with
          | .ok store' => .ok (0, store')
          | .error e => .error e
      | none => .ok (0, store)

/-- Restates the candidate-question derivation in the claim's own wording,
for the refinement check against `fallback_extract_questions`: keep, in
order of appearance, each line that after stripping surrounding whitespace
is at least 10 characters and does not begin with a heading marker, and
that — after stripping a leading ordinal marker (digits followed by a dot
or closing parenthesis) and a leading bullet marker (dash or asterisk),
each with its trailing whitespace — ends with a question mark and is still
longer than 10 characters, returning the stripped line. -/
def questionOfLine (l : String) : Option String :=
  let line := pyStrip l
  if line.length ≥ 10 && !(pyStartsWith line "#") then
    let c := stripBulletMarker (stripOrdinalMarker line)
    if pyEndsWith c "?" && c.length > 10 then some c else none
  else none

/-- Restates the candidate-question derivation as the list of per-line
selections, in order of appearance. -/
def fallbackQuestionsSpec (text : String) : List String :=
  (pySplitlines text).filterMap questionOfLine

/-- An argv contains the `--disallowedTools` flag immediately followed by
the joined fixed disallowed list. -/
def hasDisallowedPair (cmd : List String) : Prop :=
  ∃ i, cmd.get? i = some "--disallowedTools" ∧
       cmd.get? (i + 1) = some "Edit,Write,Bash,NotebookEdit"

/-- C1: for every environment, task, model, max-turns value and
caller-supplied allowed-tools override, `_build_exec_cmd` emits the
`--disallowedTools` flag followed by the full fixed list
`Edit,Write,Bash,NotebookEdit`; `_build_continue_cmd` does the same for
every session id and message, and emits no `--allowedTools` flag (the
hypotheses only rule out payload strings that spell the flag's name, which
an argv parser would not treat as a flag). -/
theorem build_cmds_always_disallow (env : SysEnv) (task : String)
    (model : Option String) (max_turns : Int) (allowed_tools : Option (List String))
    (sid msg : String)
    (hbin : find_claude_bin env ≠ "--allowedTools")
    (hsid : sid ≠ "--allowedTools") (hmsg : msg ≠ "--allowedTools")
    (hmodel : model ≠ some "--allowedTools")
    (hturns : toString max_turns ≠ "--allowedTools") :
    hasDisallowedPair (build_exec_cmd env task model max_turns allowed_tools) ∧
    hasDisallowedPair (build_continue_cmd env sid msg model max_turns) ∧
    "--allowedTools" ∉ build_continue_cmd env sid msg model max_turns := by
  refine ⟨?_, ?_, ?_⟩
  · unfold build_exec_cmd
    rcases model with _ | m
    · exact ⟨11, rfl, rfl⟩
    · by_cases hm : m = "" <;> simp only [hm, if_pos, if_neg, reduceIte] <;>
        exact ⟨11, rfl, rfl⟩
  · unfold build_continue_cmd
    rcases model with _ | m
    · exact ⟨9, rfl, rfl⟩
    · by_cases hm : m = "" <;> simp only [hm, if_pos, if_neg, reduceIte] <;>
        exact ⟨9, rfl, rfl⟩
  · unfold build_continue_cmd
    rcases model with _ | m
    · intro hmem
      simp only [List.mem_cons, List.not_mem_nil, or_false] at hmem
      rcases hmem with e1 | e2 | e3 | e4 | e5 | e6 | e7 | e8 | e9 | e0
      · exact hbin e1.symm
      all_goals first
        | exact absurd (by assumption) (by decide)
        | exact hmsg (by symm; assumption)
        | exact hsid (by symm; assumption)
        | exact hturns (by symm; assumption)
    · by_cases hm : m = ""
      · simp only [hm, reduceIte]
        intro hmem
        simp only [List.mem_cons, List.not_mem_nil, or_false] at hmem
        rcases hmem with f1 | f2 | f3 | f4 | f5 | f6 | f7 | f8 | f9 | f0
        · exact hbin f1.symm
        all_goals first
          | exact absurd (by assumption) (by decide)
          | exact hmsg (by symm; assumption)
          | exact hsid (by symm; assumption)
          | exact hturns (by symm; assumption)
      · simp only [hm, reduceIte]
        intro hmem
        simp only [List.mem_append, List.mem_cons, List.not_mem_nil, or_false] at hmem
        rcases hmem with (g1 | g2 | g3 | g4 | g5 | g6 | g7 | g8 | g9 | g0) | (gm | gv)
        · exact hbin g1.symm
        all_goals first
          | exact absurd (by assumption) (by decide)
          | exact hmsg (by symm; assumption)
          | exact hsid (by symm; assumption)
          | exact hturns (by symm; assumption)
          | exact hmodel (by rw [← gv])

/-- Concrete environment for witnesses: a non-Windows host with no resolved
or installed binary. -/
def envW : SysEnv :=
  { isWindows := false, whichClaudeCmd := none, whichClaude := none,
    home := "/home/user", existsAt := fun _ => false,
    workerPromptFile := "/opt/cc-worker/scripts/worker_system.md" }

/-- Witness for C1 at a concrete task, session and message. -/
theorem build_cmds_always_disallow_witness :
    hasDisallowedPair (build_exec_cmd envW "summarize the repo" none 15 none) ∧
    hasDisallowedPair (build_continue_cmd envW "sess-1" "go on" none 15) ∧
    "--allowedTools" ∉ build_continue_cmd envW "sess-1" "go on" none 15 :=
  build_cmds_always_disallow envW "summarize the repo" none 15 none "sess-1" "go on"
    (by decide) (by decide) (by decide) (by decide) (by decide)

/-- The three enumerated status values of the Normalized Result contract. -/
def statusIs3 (j : Json) : Bool :=
  j.isStrVal "completed" || j.isStrVal "incomplete" || j.isStrVal "needs_clarification"

/-- Raw envelope whose free-form result carries a structured payload with an
out-of-contract status value and a questions list. -/
def c2raw : Json :=
  .obj [("result", .str "\x7b\"status\": \"banana\", \"questions\": [\"What now, exactly?\"]\x7d")]

/-- The normalized result `_run` produces for `c2raw`. -/
def c2norm : Json :=
  .obj [
    ("session_id", .str ""), ("model", .str ""), ("cost_usd", .num 0),
    ("duration_ms", .num 0), ("num_turns", .num 0), ("is_error", .bool false),
    ("subtype", .str ""),
    ("status", .str "banana"), ("summary", .str ""), ("analysis", .str ""),
    ("questions", .arr [.str "What now, exactly?"]), ("files_analyzed", .arr [])]

/-- Counterexample to C2 as stated: a raw response that parses as JSON whose
structured payload carries status `banana`, so the normalized status is none
of the three enumerated values, and its non-empty questions list coexists
with a status that is not `needs_clarification`. -/
theorem status_invariant_counterexample :
    normalizeRaw c2raw = .ok c2norm ∧
    statusIs3 (jgetD c2norm "status" .null) = false ∧
    Json.isNonEmptyArr (jgetD c2norm "questions" (.arr [])) = true ∧
    (jgetD c2norm "status" .null).isStrVal "needs_clarification" = false :=
  ⟨rfl, rfl, rfl, rfl⟩

/-- C2 amended: on the heuristic fallback path (string result from which no
structured payload is recovered) the normalized status is one of the three
enumerated values, and a non-empty questions list forces status
`needs_clarification` or — when the turn budget was exhausted —
`incomplete`; the structured path copies status and questions verbatim from
the payload and is unconstrained (see the counterexample). -/
theorem status_invariant_fallback (raw : Json) (text : String) (r : Json)
    (hres : jgetD raw "result" (.str "") = .str text)
    (hext : extract_worker_json text = none)
    (hok : normalizeRaw raw = .ok r) :
    statusIs3 (jgetD r "status" .null) = true ∧
    (Json.isNonEmptyArr (jgetD r "questions" (.arr [])) = true →
      (jgetD r "status" .null).isStrVal "needs_clarification" = true ∨
      (jgetD r "status" .null).isStrVal "incomplete" = true) := by
  cases raw with
  | obj ms =>
    simp only [normalizeRaw, hres, hext] at hok
    simp only [Except.ok.injEq] at hok
    subst hok
    cases htr : (jgetD (Json.obj ms) "subtype" Json.null).isStrVal "error_max_turns" <;>
      cases hq : fallback_extract_questions text <;>
        simp +decide [htr, hq, jgetD, jget, jget.go, statusIs3,
          Json.isStrVal, Json.isNonEmptyArr]
  | null => simp [normalizeRaw] at hok
  | bool b => simp [normalizeRaw] at hok
  | num n => simp [normalizeRaw] at hok
  | str s => simp [normalizeRaw] at hok
  | arr es => simp [normalizeRaw] at hok

/-- Concrete raw envelope on the fallback path: turn budget exhausted, free
prose containing a question line. -/
def c2wraw : Json :=
  .obj [("subtype", .str "error_max_turns"),
        ("result", .str "Should I continue the analysis?")]

/-- The normalized result for `c2wraw`. -/
def c2wnorm : Json :=
  .obj [
    ("session_id", .str ""), ("model", .str ""), ("cost_usd", .num 0),
    ("duration_ms", .num 0), ("num_turns", .num 0), ("is_error", .bool false),
    ("subtype", .str "error_max_turns"),
    ("status", .str "incomplete"), ("summary", .str ""),
    ("analysis", .str "Should I continue the analysis?"),
    ("questions", .arr [.str "Should I continue the analysis?"]),
    ("files_analyzed", .arr [])]

/-- Witness for the amended C2 on a concrete fallback-path envelope. -/
theorem status_invariant_fallback_witness :
    statusIs3 (jgetD c2wnorm "status" .null) = true ∧
    (Json.isNonEmptyArr (jgetD c2wnorm "questions" (.arr [])) = true →
      (jgetD c2wnorm "status" .null).isStrVal "needs_clarification" = true ∨
      (jgetD c2wnorm "status" .null).isStrVal "incomplete" = true) :=
  status_invariant_fallback c2wraw "Should I continue the analysis?" c2wnorm rfl rfl rfl

/-- Counterexample to C3 as stated: a raw envelope whose `result` value is
the number 42 (a possible value under the result key of parsed JSON) makes
the interpretation step raise `TypeError` at `re.findall` instead of
degrading to the heuristic path. -/
theorem interpret_raises_counterexample :
    normalizeRaw (.obj [("result", .num 42)]) = .error PyError.typeError :=
  rfl

/-- C3 amended: for every *string* value under the raw response's result
key (including the default empty string when the key is absent), the
interpretation step never raises — whether or not a structured payload is
recovered, a normalized result is returned. -/
theorem interpret_never_raises (ms : List (String × Json)) (text : String)
    (hres : jgetD (.obj ms) "result" (.str "") = .str text) :
    (normalizeRaw (.obj ms)).isOk = true := by
  simp only [normalizeRaw, hres]
  cases extract_worker_json text <;> simp [Except.isOk, Except.toBool]

/-- Witness for the amended C3 on a concrete prose result. -/
theorem interpret_never_raises_witness :
    (normalizeRaw (.obj [("result", .str "No questions today.")])).isOk = true :=
  interpret_never_raises [("result", .str "No questions today.")] "No questions today." rfl

/-- Equality characterisation of the string-value test. -/
theorem isStrVal_iff (j : Json) (s : String) : j.isStrVal s = true ↔ j = .str s := by
  cases j <;> simp [Json.isStrVal]

/-- C4: on the fallback path (string result, no structured payload), status
is `incomplete` whenever the raw subtype equals `error_max_turns` regardless
of the text; otherwise `needs_clarification` exactly when the heuristic
question list is non-empty, else `completed`; and summary is empty, analysis
is the full raw result string, files_analyzed is empty. -/
theorem fallback_status_rules (raw : Json) (text : String) (r : Json)
    (hres : jgetD raw "result" (.str "") = .str text)
    (hext : extract_worker_json text = none)
    (hok : normalizeRaw raw = .ok r) :
    (jgetD raw "subtype" Json.null = .str "error_max_turns" →
      jget r "status" = some (.str "incomplete")) ∧
    (jgetD raw "subtype" Json.null ≠ .str "error_max_turns" →
      (fallback_extract_questions text ≠ [] →
        jget r "status" = some (.str "needs_clarification")) ∧
      (fallback_extract_questions text = [] →
        jget r "status" = some (.str "completed"))) ∧
    jget r "summary" = some (.str "") ∧
    jget r "analysis" = some (.str text) ∧
    jget r "files_analyzed" = some (.arr []) := by
  cases raw with
  | obj ms =>
    simp only [normalizeRaw, hres, hext, Except.ok.injEq] at hok
    subst hok
    refine ⟨?_, ?_, ?_, ?_, ?_⟩
    · intro hsub
      have htr : (jgetD (Json.obj ms) "subtype" Json.null).isStrVal "error_max_turns" = true := by
        rw [hsub]; simp [Json.isStrVal]
      simp +decide [htr, jget, jget.go]
    · intro hsub
      have htr : (jgetD (Json.obj ms) "subtype" Json.null).isStrVal "error_max_turns" = false := by
        cases h : (jgetD (Json.obj ms) "subtype" Json.null).isStrVal "error_max_turns"
        · rfl
        · exact absurd ((isStrVal_iff _ _).mp h) hsub
      constructor
      · intro hqne
        cases hq : fallback_extract_questions text with
        | nil => exact absurd hq hqne
        | cons a l => simp +decide [htr, hq, jget, jget.go]
      · intro hq
        simp +decide [htr, hq, jget, jget.go]
    · simp +decide [jget, jget.go]
    · simp +decide [jget, jget.go]
    · simp +decide [jget, jget.go]
  | null => simp [normalizeRaw] at hok
  | bool b => simp [normalizeRaw] at hok
  | num n => simp [normalizeRaw] at hok
  | str s => simp [normalizeRaw] at hok
  | arr es => simp [normalizeRaw] at hok

/-- Witness for C4 on the concrete truncated envelope. -/
theorem fallback_status_rules_witness :
    (jgetD c2wraw "subtype" Json.null = .str "error_max_turns" →
      jget c2wnorm "status" = some (.str "incomplete")) ∧
    (jgetD c2wraw "subtype" Json.null ≠ .str "error_max_turns" →
      (fallback_extract_questions "Should I continue the analysis?" ≠ [] →
        jget c2wnorm "status" = some (.str "needs_clarification")) ∧
      (fallback_extract_questions "Should I continue the analysis?" = [] →
        jget c2wnorm "status" = some (.str "completed"))) ∧
    jget c2wnorm "summary" = some (.str "") ∧
    jget c2wnorm "analysis" = some (.str "Should I continue the analysis?") ∧
    jget c2wnorm "files_analyzed" = some (.arr []) :=
  fallback_status_rules c2wraw "Should I continue the analysis?" c2wnorm rfl rfl rfl

/-- The loop body appends exactly the per-line selection of the
claim-worded filter. -/
theorem questionStep_eq (qs : List String) (l : String) :
    questionStep qs l = qs ++ (questionOfLine l).toList := by
  unfold questionStep questionOfLine
  by_cases h1 : (pyStrip l).length < 10
  · have h2 : ¬ (10 ≤ (pyStrip l).length) := by omega
    simp [h1, h2]
  · have h2 : 10 ≤ (pyStrip l).length := by omega
    by_cases h3 : pyStartsWith (pyStrip l) "#" = true
    · simp [h1, h2, h3]
    · by_cases h4 : (pyEndsWith (stripBulletMarker (stripOrdinalMarker (pyStrip l))) "?"
          && decide ((stripBulletMarker (stripOrdinalMarker (pyStrip l))).length > 10)) = true
      · simp [h1, h2, h3, h4]
      · simp [h1, h2, h3, h4]

/-- Accumulator generalisation of the question-collecting fold. -/
theorem fb_aux (lines : List String) (acc : List String) :
    lines.foldl questionStep acc = acc ++ lines.filterMap questionOfLine := by
  induction lines generalizing acc with
  | nil => simp
  | cons l ls ih =>
    rw [List.foldl_cons, questionStep_eq, ih, List.filterMap_cons]
    cases questionOfLine l <;> simp

/-- C5: `_fallback_extract_questions` returns, in order of appearance,
exactly the lines selected and stripped as the claim describes (with the
ordinal and bullet markers understood to include their trailing
whitespace, which the source's anchored substitutions also consume). -/
theorem fallback_questions_match_spec (text : String) :
    fallback_extract_questions text = fallbackQuestionsSpec text := by
  have h := fb_aux (pySplitlines text) []
  simpa [fallback_extract_questions, fallbackQuestionsSpec] using h

/-- C6: appending to an existing session record adds exactly two turns — the
user turn with the given message, then the assistant turn — after the
existing ones, moves `updated_at` to the strictly later current instant,
rewrites `last_status` and `last_summary` from the result, and leaves
`session_id`, `task`, `cwd`, `model`, `created_at` and all previously stored
turns unchanged (the hypothesis is clock monotonicity across the two store
operations). -/
theorem session_update_effects (rec : SessionRecord) (msg : String) (result : Json)
    (now : String) (h : rec.updated_at < now) :
    (session_update_rec rec msg result now).turns
      = rec.turns ++ [
        { role := "user", content := .str msg, timestamp := now, status := none },
        { role := "assistant", content := jgetD result "result" (.str ""),
          timestamp := now, status := some (jgetD result "status" .null) }] ∧
    rec.updated_at < (session_update_rec rec msg result now).updated_at ∧
    (session_update_rec rec msg result now).updated_at = now ∧
    (session_update_rec rec msg result now).last_status
      = jgetD result "status" (.str "completed") ∧
    (session_update_rec rec msg result now).last_summary
      = jgetD result "summary" (.str "") ∧
    (session_update_rec rec msg result now).session_id = rec.session_id ∧
    (session_update_rec rec msg result now).task = rec.task ∧
    (session_update_rec rec msg result now).cwd = rec.cwd ∧
    (session_update_rec rec msg result now).model = rec.model ∧
    (session_update_rec rec msg result now).created_at = rec.created_at :=
  ⟨rfl, h, rfl, rfl, rfl, rfl, rfl, rfl, rfl, rfl⟩

/-- Concrete session record for witnesses. -/
def recW : SessionRecord :=
  { session_id := "sess-42", task := "analyze the parser", cwd := ".",
    model := "m1", created_at := "2025-01-01T10:00:00+00:00",
    updated_at := "2025-01-01T10:00:00+00:00",
    turns := [
      { role := "user", content := .str "analyze the parser",
        timestamp := "2025-01-01T10:00:00+00:00", status := none },
      { role := "assistant", content := .str "",
        timestamp := "2025-01-01T10:00:00+00:00", status := some (.str "completed") }],
    last_status := .str "completed", last_summary := .str "" }

/-- Witness for C6 at a concrete record, message, result and later instant. -/
theorem session_update_effects_witness :
    (session_update_rec recW "go deeper" c2wnorm "2025-01-01T11:00:00+00:00").turns
      = recW.turns ++ [
        { role := "user", content := .str "go deeper",
          timestamp := "2025-01-01T11:00:00+00:00", status := none },
        { role := "assistant", content := jgetD c2wnorm "result" (.str ""),
          timestamp := "2025-01-01T11:00:00+00:00",
          status := some (jgetD c2wnorm "status" .null) }] ∧
    recW.updated_at
      < (session_update_rec recW "go deeper" c2wnorm "2025-01-01T11:00:00+00:00").updated_at ∧
    (session_update_rec recW "go deeper" c2wnorm "2025-01-01T11:00:00+00:00").updated_at
      = "2025-01-01T11:00:00+00:00" ∧
    (session_update_rec recW "go deeper" c2wnorm "2025-01-01T11:00:00+00:00").last_status
      = jgetD c2wnorm "status" (.str "completed") ∧
    (session_update_rec recW "go deeper" c2wnorm "2025-01-01T11:00:00+00:00").last_summary
      = jgetD c2wnorm "summary" (.str "") ∧
    (session_update_rec recW "go deeper" c2wnorm "2025-01-01T11:00:00+00:00").session_id
      = recW.session_id ∧
    (session_update_rec recW "go deeper" c2wnorm "2025-01-01T11:00:00+00:00").task
      = recW.task ∧
    (session_update_rec recW "go deeper" c2wnorm "2025-01-01T11:00:00+00:00").cwd
      = recW.cwd ∧
    (session_update_rec recW "go deeper" c2wnorm "2025-01-01T11:00:00+00:00").model
      = recW.model ∧
    (session_update_rec recW "go deeper" c2wnorm "2025-01-01T11:00:00+00:00").created_at
      = recW.created_at :=
  session_update_effects recW "go deeper" c2wnorm "2025-01-01T11:00:00+00:00"
    (String.lt_iff_toList_lt.mpr (by decide))


/-- Writing a file and reading it back at the same stem yields the record. -/
theorem storeLookup_storeSet_self (store : Store) (k : String) (d : SessionRecord) :
    storeLookup (storeSet store k d) k = some d := by
  induction store with
  | nil => simp [storeSet, storeLookup]
  | cons p t ih =>
    obtain ⟨k', r'⟩ := p
    by_cases h : k' = k
    · simp [storeSet, storeLookup, h]
    · simp [storeSet, storeLookup, h, ih]

/-- A successful exact lookup is a member of the directory. -/
theorem storeLookup_mem (store : Store) (k : String) (r : SessionRecord)
    (h : storeLookup store k = some r) : (k, r) ∈ store := by
  induction store with
  | nil => simp [storeLookup] at h
  | cons p t ih =>
    obtain ⟨k', r'⟩ := p
    by_cases hk : k' = k
    · subst hk
      simp [storeLookup] at h
      subst h
      exact List.mem_cons_self _ _
    · rw [storeLookup, if_neg hk] at h
      exact List.mem_cons_of_mem _ (ih h)

/-- The written pair is in the directory after the write. -/
theorem storeSet_mem_self (store : Store) (k : String) (d : SessionRecord) :
    (k, d) ∈ storeSet store k d := by
  induction store with
  | nil => simp [storeSet]
  | cons p t ih =>
    obtain ⟨k', r'⟩ := p
    by_cases h : k' = k
    · simp [storeSet, h]
    · rw [storeSet, if_neg h]
      exact List.mem_cons_of_mem _ ih

/-- Stems present after a write: the old stems plus the written one. -/
theorem mem_keys_storeSet (store : Store) (k : String) (d : SessionRecord) (a : String) :
    a ∈ (storeSet store k d).map Prod.fst ↔ a ∈ store.map Prod.fst ∨ a = k := by
  induction store with
  | nil => simp [storeSet]
  | cons p t ih =>
    obtain ⟨k', r'⟩ := p
    by_cases h : k' = k
    · rw [storeSet, if_pos h]
      subst h
      simp only [List.map_cons, List.mem_cons]
      tauto
    · rw [storeSet, if_neg h]
      simp only [List.map_cons, List.mem_cons, ih]
      tauto

/-- A write keeps the directory's stems unique. -/
theorem storeSet_keys_nodup (store : Store) (k : String) (d : SessionRecord)
    (h : (store.map Prod.fst).Nodup) : ((storeSet store k d).map Prod.fst).Nodup := by
  induction store with
  | nil => simp [storeSet]
  | cons p t ih =>
    obtain ⟨k', r'⟩ := p
    simp only [List.map_cons, List.nodup_cons] at h
    by_cases hk : k' = k
    · rw [storeSet, if_pos hk]
      subst hk
      simp only [List.map_cons, List.nodup_cons]
      exact h
    · rw [storeSet, if_neg hk]
      simp only [List.map_cons, List.nodup_cons]
      refine ⟨?_, ih h.2⟩
      intro hmem
      rcases (mem_keys_storeSet t k d k').mp hmem with hin | hEq
      · exact h.1 hin
      · exact hk hEq

/-- With unique stems, one stem maps to one record. -/
theorem assoc_unique (store : Store) (hnd : (store.map Prod.fst).Nodup) (k : String)
    (a b : SessionRecord) (ha : (k, a) ∈ store) (hb : (k, b) ∈ store) : a = b := by
  induction store with
  | nil => simp at ha
  | cons p t ih =>
    obtain ⟨k', r'⟩ := p
    simp only [List.map_cons, List.nodup_cons] at hnd
    rcases List.mem_cons.mp ha with ha1 | ha2 <;> rcases List.mem_cons.mp hb with hb1 | hb2
    · rw [Prod.mk.injEq] at ha1 hb1
      rw [ha1.2, hb1.2]
    · exfalso
      rw [Prod.mk.injEq] at ha1
      exact hnd.1 (ha1.1 ▸ (List.mem_map_of_mem Prod.fst hb2))
    · exfalso
      rw [Prod.mk.injEq] at hb1
      exact hnd.1 (hb1.1 ▸ (List.mem_map_of_mem Prod.fst ha2))
    · exact ih hnd.2 ha2 hb2

/-- When exactly one directory entry satisfies the scan predicate, the scan
returns it whatever its position. -/
theorem find_first_of_unique (l : Store) (pre sid : String) (d : SessionRecord)
    (hmem : (sid, d) ∈ l)
    (hpred : pyStartsWith sid pre = true)
    (huni : ∀ k r, (k, r) ∈ l → pyStartsWith k pre = true → (k, r) = (sid, d)) :
    l.find? (fun p => pyStartsWith p.1 pre) = some (sid, d) := by
  induction l with
  | nil => simp at hmem
  | cons p t ih =>
    obtain ⟨k', r'⟩ := p
    by_cases hp : pyStartsWith k' pre = true
    · have hpa : (fun p : String × SessionRecord => pyStartsWith p.1 pre) (k', r') = true := hp
      exact (List.find?_cons_of_pos t hpa).trans
        (congrArg some (huni k' r' (List.mem_cons_self _ _) hp))
    · have hpa : ¬ ((fun p : String × SessionRecord => pyStartsWith p.1 pre) (k', r') = true) := hp
      rw [List.find?_cons_of_neg t hpa]
      have hmem' : (sid, d) ∈ t := by
        rcases List.mem_cons.mp hmem with h1 | h2
        · exfalso
          rw [Prod.mk.injEq] at h1
          exact hp (h1.1 ▸ hpred)
        · exact h2
      exact ih hmem' (fun k r hm hpk => huni k r (List.mem_cons_of_mem _ hm) hpk)

/-- C7: writing a record with `session_save` and reading it back through
`session_get` with the exact same id returns the record written; reading
with any non-empty prefix of the id that matches no other stored session
also returns it (the Nodup hypothesis states that directory filenames are
unique). -/
theorem session_save_get_roundtrip (store : Store) (sid task : String) (result : Json)
    (cwd model now : String) (pre : String)
    (hnodup : (store.map Prod.fst).Nodup)
    (hpre : pre ≠ "")
    (hpfx : pyStartsWith sid pre = true)
    (honly : ∀ k r, (k, r) ∈ (session_save store sid task result cwd model now).2 →
        k ≠ sid → pyStartsWith k pre = false) :
    session_get (session_save store sid task result cwd model now).2 sid
      = some (session_save store sid task result cwd model now).1 ∧
    session_get (session_save store sid task result cwd model now).2 pre
      = some (session_save store sid task result cwd model now).1 := by
  have hx : storeLookup (session_save store sid task result cwd model now).2 sid
      = some (session_save store sid task result cwd model now).1 :=
    storeLookup_storeSet_self store sid _
  constructor
  · rw [session_get, hx]
  · by_cases hps : pre = sid
    · subst hps
      rw [session_get, hx]
    · have h2 : storeLookup (session_save store sid task result cwd model now).2 pre = none := by
        cases hl : storeLookup (session_save store sid task result cwd model now).2 pre with
        | none => rfl
        | some r =>
          have hmem := storeLookup_mem _ _ _ hl
          have hfalse := honly pre r hmem hps
          have hrefl : pyStartsWith pre pre = true := by
            simp [pyStartsWith, List.isPrefixOf_iff_prefix]
          rw [hrefl] at hfalse
          exact absurd hfalse (by simp)
      have hnodup' : ((session_save store sid task result cwd model now).2.map Prod.fst).Nodup :=
        storeSet_keys_nodup store sid _ hnodup
      have hself : (sid, (session_save store sid task result cwd model now).1)
          ∈ (session_save store sid task result cwd model now).2 :=
        storeSet_mem_self store sid _
      have huni : ∀ k r, (k, r) ∈ (session_save store sid task result cwd model now).2 →
          pyStartsWith k pre = true →
          (k, r) = (sid, (session_save store sid task result cwd model now).1) := by
        intro k r hm hp
        have hk : k = sid := by
          by_contra hne
          have := honly k r hm hne
          rw [hp] at this
          exact absurd this (by simp)
        have hr : r = (session_save store sid task result cwd model now).1 := by
          rw [hk] at hm
          exact assoc_unique _ hnodup' sid r _ hm hself
        rw [hk, hr]
      have h3 := find_first_of_unique _ pre sid _ hself hpfx huni
      rw [session_get, h2, h3]
      rfl

/-- Result dictionary used by store witnesses. -/
def resW : Json :=
  .obj [("status", .str "completed"), ("summary", .str "looked at the parser")]

/-- Witness for C7: empty directory, a concrete id and the prefix `abc`. -/
theorem session_save_get_roundtrip_witness :
    session_get (session_save [] "abc123" "task one" resW "." "m1" "2025-01-01T10:00:00+00:00").2
        "abc123"
      = some (session_save [] "abc123" "task one" resW "." "m1" "2025-01-01T10:00:00+00:00").1 ∧
    session_get (session_save [] "abc123" "task one" resW "." "m1" "2025-01-01T10:00:00+00:00").2
        "abc"
      = some (session_save [] "abc123" "task one" resW "." "m1" "2025-01-01T10:00:00+00:00").1 :=
  session_save_get_roundtrip [] "abc123" "task one" resW "." "m1" "2025-01-01T10:00:00+00:00" "abc"
    (by simp) (by decide) (by decide)
    (by
      intro k r hm hne
      simp [session_save, storeSet] at hm
      exact absurd hm.1 hne)

/-- When no stored stem has `sid` as a prefix, lookup by `sid` finds nothing. -/
theorem session_get_none_of_no_prefix (store : Store) (sid : String)
    (h : ∀ k r, (k, r) ∈ store → pyStartsWith k sid = false) :
    session_get store sid = none := by
  have h1 : storeLookup store sid = none := by
    cases hl : storeLookup store sid with
    | none => rfl
    | some r =>
      have hmem := storeLookup_mem _ _ _ hl
      have hr := h sid r hmem
      have hrefl : pyStartsWith sid sid = true := by
        simp [pyStartsWith, List.isPrefixOf_iff_prefix]
      rw [hrefl] at hr
      exact absurd hr (by simp)
  have h2 : store.find? (fun p => pyStartsWith p.1 sid) = none := by
    rw [List.find?_eq_none]
    intro p hp
    simp [h p.1 p.2 hp]
  rw [session_get, h1, h2]
  rfl

/-- Record with id `ab` for the delete scenario. -/
def recA : SessionRecord :=
  { session_id := "ab", task := "t1", cwd := ".", model := "",
    created_at := "2025-01-01T10:00:00+00:00", updated_at := "2025-01-01T10:00:00+00:00",
    turns := [], last_status := .null, last_summary := .null }

/-- Record with id `abc`, sharing the prefix `ab`. -/
def recB : SessionRecord :=
  { session_id := "abc", task := "t2", cwd := ".", model := "",
    created_at := "2025-01-01T10:05:00+00:00", updated_at := "2025-01-01T10:05:00+00:00",
    turns := [], last_status := .null, last_summary := .null }

/-- Counterexample to C8 as stated: deleting `ab` from a directory that also
holds `abc` succeeds, but a subsequent `session_get "ab"` still returns a
match — the surviving session `abc` found by the prefix scan. -/
theorem session_delete_counterexample :
    (session_delete [("ab", recA), ("abc", recB)] "ab").1 = true ∧
    session_get (session_delete [("ab", recA), ("abc", recB)] "ab").2 "ab" = some recB :=
  ⟨rfl, rfl⟩

/-- C8 amended: `session_delete` on a missing id returns false and leaves
the directory unchanged (and raises nothing); on an existing id it returns
true, and a subsequent `session_get` for that id returns no match provided
no surviving session's id has the deleted id as a prefix — otherwise the
prefix scan can still return a match (see the counterexample). -/
theorem session_delete_spec (store : Store) (sid : String) :
    (storeHasKey store sid = false → session_delete store sid = (false, store)) ∧
    (storeHasKey store sid = true →
      (session_delete store sid).1 = true ∧
      ((∀ k r, (k, r) ∈ (session_delete store sid).2 → pyStartsWith k sid = false) →
        session_get (session_delete store sid).2 sid = none)) := by
  refine ⟨?_, ?_⟩
  · intro h
    induction store with
    | nil => rfl
    | cons p t ih =>
      obtain ⟨k, r⟩ := p
      by_cases hk : k = sid
      · exfalso
        rw [storeHasKey, storeLookup, if_pos hk] at h
        simp at h
      · rw [storeHasKey, storeLookup, if_neg hk] at h
        have ht := ih h
        rw [session_delete, if_neg hk, ht]
  · intro h
    constructor
    · induction store with
      | nil =>
        exfalso
        simp [storeHasKey, storeLookup] at h
      | cons p t ih =>
        obtain ⟨k, r⟩ := p
        by_cases hk : k = sid
        · rw [session_delete, if_pos hk]
        · rw [storeHasKey, storeLookup, if_neg hk] at h
          rw [session_delete, if_neg hk]
          exact ih h
    · intro hall
      exact session_get_none_of_no_prefix _ sid hall

/-- Witness for the amended C8: a delete miss, and a hit whose survivors
share no prefix with the deleted id. -/
theorem session_delete_spec_witness :
    session_delete [("ab", recA)] "zz" = (false, [("ab", recA)]) ∧
    (session_delete [("ab", recA), ("abc", recB)] "abc").1 = true ∧
    session_get (session_delete [("ab", recA), ("abc", recB)] "abc").2 "abc" = none :=
  ⟨(session_delete_spec [("ab", recA)] "zz").1 (by decide),
   ((session_delete_spec [("ab", recA), ("abc", recB)] "abc").2 (by decide)).1,
   ((session_delete_spec [("ab", recA), ("abc", recB)] "abc").2 (by decide)).2
     (by
       intro k r hm
       have hred : (session_delete [("ab", recA), ("abc", recB)] "abc").2 = [("ab", recA)] := rfl
       rw [hred, List.mem_singleton, Prod.mk.injEq] at hm
       rw [hm.1]
       decide)⟩

/-- The process-level failure taxonomy: missing binary, timeout, non-zero
exit without usable stdout, or stdout that is not valid JSON. -/
def isProcessFailure : ProcOutcome → Bool
  | .notFound => true
  | .timedOut => true
  | .completed rc out _ => (rc != 0 && pyStrip out = "") || (json_loads out).isNone

/-- Tests whether a run returned an error object. -/
def hasError : Except PyError Json → Bool
  | .ok r => (jget r "error").isSome
  | .error _ => false

/-- The `exit_code` field of a run's result, when any. -/
def exitCodeOf : Except PyError Json → Option Json
  | .ok r => jget r "exit_code"
  | .error _ => none

/-- Every process-level failure surfaces as an error object from `_run`. -/
theorem runProc_failure (cmdv : List String) (o : ProcOutcome) (t : Int)
    (h : isProcessFailure o = true) :
    ∃ r, runProc cmdv o t = .ok r ∧ (jget r "error").isSome = true := by
  cases o with
  | notFound => exact ⟨_, rfl, rfl⟩
  | timedOut => exact ⟨_, rfl, rfl⟩
  | completed rc out err =>
    rw [isProcessFailure] at h
    by_cases hc : (rc != 0 && pyStrip out = "") = true
    · refine ⟨.obj [("error", .str (if pyStrip err = "" then s!"claude exited with code {rc}"
          else pyStrip err)), ("exit_code", .num rc)], ?_, rfl⟩
      rw [runProc, if_pos hc]
    · rw [Bool.or_eq_true] at h
      have hn : (json_loads out).isNone = true := by
        rcases h with h1 | h2
        · exact absurd h1 hc
        · exact h2
      have hnone : json_loads out = none := Option.isNone_iff_eq_none.mp hn
      refine ⟨.obj [("error", .str "Failed to parse claude output as JSON"),
          ("raw_output", .str (strTake out 2000)), ("exit_code", .num rc)], ?_, rfl⟩
      rw [runProc, if_neg hc, hnone]

/-- C9: the timeout sentinel (-2) is distinct from the missing-binary
sentinel (-1), and every process-level failure makes `_run` return an error
object, upon which both `cmd_exec` and `cmd_continue` exit 1 leaving the
session directory exactly as it was: nothing created, nothing updated. -/
theorem process_failures_terminal (env : SysEnv) (o : ProcOutcome) (t : Int)
    (cmdv : List String) (task sidArg msg : String)
    (cwdArg modelArg atArg : Option String) (mt : Int) (store : Store) (now : String)
    (h : isProcessFailure o = true) :
    hasError (runProc cmdv o t) = true ∧
    cmd_exec env o task cwdArg modelArg atArg mt t store now = .ok (1, store) ∧
    cmd_continue env o sidArg msg modelArg mt t store now = .ok (1, store) ∧
    exitCodeOf (runProc cmdv .timedOut t) = some (.num (-2)) ∧
    exitCodeOf (runProc cmdv .notFound t) = some (.num (-1)) ∧
    ((-2 : Int) ≠ -1) := by
  obtain ⟨r, hr, he⟩ := runProc_failure cmdv o t h
  have hcc : ∀ c : List String, runProc c o t = runProc cmdv o t := by
    intro c
    cases o <;> rfl
  refine ⟨?_, ?_, ?_, rfl, rfl, by decide⟩
  · rw [hr]
    exact he
  · unfold cmd_exec
    simp only []
    rw [hcc _, hr]
    simp [he]
  · unfold cmd_continue
    simp only []
    rw [hcc _, hr]
    simp [he]

/-- Witness for C9: a process that exits 3 with empty stdout, an empty
directory, and concrete arguments. -/
theorem process_failures_terminal_witness :
    hasError (runProc [] (.completed 3 "" "boom") 600) = true ∧
    cmd_exec envW (.completed 3 "" "boom") "t" none none none 15 600 [] "2025-01-01T10:00:00+00:00"
      = .ok (1, []) ∧
    cmd_continue envW (.completed 3 "" "boom") "s" "m" none 15 600 [] "2025-01-01T10:00:00+00:00"
      = .ok (1, []) ∧
    exitCodeOf (runProc [] .timedOut 600) = some (.num (-2)) ∧
    exitCodeOf (runProc [] .notFound 600) = some (.num (-1)) ∧
    ((-2 : Int) ≠ -1) :=
  process_failures_terminal envW (.completed 3 "" "boom") 600 [] "t" "s" "m"
    none none none 15 [] "2025-01-01T10:00:00+00:00" (by decide)

/-- The normalized result built by `_run` never has a `result` key: its
twelve keys are the metadata and interpretation fields only. -/
theorem jget_result_none (raw r : Json) (hok : normalizeRaw raw = .ok r) :
    jget r "result" = none := by
  cases raw with
  | obj ms =>
    cases hres : jgetD (Json.obj ms) "result" (.str "") with
    | str text =>
      cases hext : extract_worker_json text with
      | some w =>
        simp only [normalizeRaw, hres, hext, Except.ok.injEq] at hok
        subst hok
        simp +decide [jget, jget.go]
      | none =>
        simp only [normalizeRaw, hres, hext, Except.ok.injEq] at hok
        subst hok
        simp +decide [jget, jget.go]
    | null => simp [normalizeRaw, hres] at hok
    | bool b => simp [normalizeRaw, hres] at hok
    | num n => simp [normalizeRaw, hres] at hok
    | arr es => simp [normalizeRaw, hres] at hok
    | obj ms2 => simp [normalizeRaw, hres] at hok
  | null => simp [normalizeRaw] at hok
  | bool b => simp [normalizeRaw] at hok
  | num n => simp [normalizeRaw] at hok
  | str s => simp [normalizeRaw] at hok
  | arr es => simp [normalizeRaw] at hok

/-- Content of the most recently stored turn. -/
def lastTurnContent (rec : SessionRecord) : Option Json :=
  rec.turns.getLast?.map (fun t => t.content)

/-- C10: for every normalized result of a successful `_run`, the assistant
turn that `session_save` and `session_update` store has empty content,
because both read the key `result` from the result dictionary while `_run`
stores the tool's free-form text only under `analysis`. -/
theorem assistant_content_always_empty (raw r : Json) (hok : normalizeRaw raw = .ok r)
    (store : Store) (sid task cwd model now msg : String) (rec : SessionRecord) :
    jgetD r "result" (.str "") = .str "" ∧
    lastTurnContent (session_save store sid task r cwd model now).1 = some (.str "") ∧
    lastTurnContent (session_update_rec rec msg r now) = some (.str "") := by
  have h0 : jget r "result" = none := jget_result_none raw r hok
  have h1 : jgetD r "result" (.str "") = .str "" := by
    rw [jgetD, h0]
    rfl
  refine ⟨h1, ?_, ?_⟩
  · simp [session_save, lastTurnContent, h1]
  · simp [session_update_rec, lastTurnContent, List.getLast?_append, h1]

/-- Witness for C10: the empty raw envelope, whose normalized result goes
through the fallback path, stored into a fresh and an existing session. -/
theorem assistant_content_always_empty_witness :
    jgetD (.obj [
      ("session_id", .str ""), ("model", .str ""), ("cost_usd", .num 0),
      ("duration_ms", .num 0), ("num_turns", .num 0), ("is_error", .bool false),
      ("subtype", .str ""), ("status", .str "completed"), ("summary", .str ""),
      ("analysis", .str ""), ("questions", .arr []), ("files_analyzed", .arr [])])
      "result" (.str "") = .str "" ∧
    lastTurnContent (session_save [] "s1" "t1" (.obj [
      ("session_id", .str ""), ("model", .str ""), ("cost_usd", .num 0),
      ("duration_ms", .num 0), ("num_turns", .num 0), ("is_error", .bool false),
      ("subtype", .str ""), ("status", .str "completed"), ("summary", .str ""),
      ("analysis", .str ""), ("questions", .arr []), ("files_analyzed", .arr [])])
      "." "m" "2025-01-01T10:00:00+00:00").1 = some (.str "") ∧
    lastTurnContent (session_update_rec recW "more" (.obj [
      ("session_id", .str ""), ("model", .str ""), ("cost_usd", .num 0),
      ("duration_ms", .num 0), ("num_turns", .num 0), ("is_error", .bool false),
      ("subtype", .str ""), ("status", .str "completed"), ("summary", .str ""),
      ("analysis", .str ""), ("questions", .arr []), ("files_analyzed", .arr [])])
      "2025-01-01T10:00:00+00:00") = some (.str "") :=
  assistant_content_always_empty (.obj []) _ rfl [] "s1" "t1" "." "m"
    "2025-01-01T10:00:00+00:00" "more" recW
